import Mathlib

/-!
Verification of the round-robin populate/preview scheduler of the oncall
repository (`src/oncall/scheduler/round-robin.py`), against its
natural-language specification.

The database state is embedded shallowly: the `event`, `schedule`,
`roster_user` and `schedule_order` tables become lists of records, SQL
queries become list computations, and the scheduler methods
(`guess_last_scheduled_user`, `find_next_user_id`, `create_events`,
`populate`, `preview`) become Lean functions over that state.  Generated
event ids and link ids are modelled by counters in the state.  The base
class `default.Scheduler` (validation, recurrence expansion, the
per-period loop, transaction commit/rollback) is not part of the sources;
those parts are modelled from the specification and are marked as such in
their doc comments.
-/

/-- One segment of a shift template: `{'start': offset, 'duration': d}`
in the schedule's `events` list, relative to the period start. -/
structure TemplateSeg where
  offset : Nat
  duration : Nat
  deriving DecidableEq, Repr

/-- One concrete event window (a dict `{'start': s, 'end': e}`) as passed
around inside the scheduler before insertion. -/
structure Seg where
  start : Nat
  end_ : Nat
  deriving DecidableEq, Repr

/-- A row of the `event` table. -/
structure Event where
  id : Nat
  team_id : Nat
  schedule_id : Option Nat
  start : Nat
  end_ : Nat
  user_id : Nat
  role_id : Nat
  link_id : Option Nat
  deriving DecidableEq, Repr

/-- A row of the `schedule` table, restricted to the fields the scheduler
reads or writes, together with the schedule's template data (kept on the
row because a `populate` call must leave it unchanged). -/
structure Schedule where
  id : Nat
  team_id : Nat
  roster_id : Nat
  role_id : Nat
  last_scheduled_user_id : Option Nat
  auto_populate_threshold : Nat
  advanced_mode : Bool
  template : List TemplateSeg
  period : Nat
  deriving DecidableEq, Repr

/-- A row of the `roster_user` table. -/
structure RosterUser where
  roster_id : Nat
  user_id : Nat
  in_rotation : Bool
  deriving DecidableEq, Repr

/-- A row of the `schedule_order` table. -/
structure ScheduleOrder where
  schedule_id : Nat
  user_id : Nat
  priority : Nat
  deriving DecidableEq, Repr

/-- The database state visible to the scheduler.  `next_id` and
`next_link_id` model generation of fresh event ids and of `gen_link_id`. -/
structure DB where
  events : List Event
  schedules : List Schedule
  roster_user : List RosterUser
  schedule_order : List ScheduleOrder
  next_id : Nat
  next_link_id : Nat
  deriving DecidableEq, Repr

/-- Errors a populate call can surface to the API layer. -/
inductive PopError where
  | invalidStart
  | dbError
  deriving DecidableEq, Repr

instance {ε : Type u} {α : Type v} [DecidableEq ε] [DecidableEq α] :
    DecidableEq (Except ε α) := fun a b =>
  match a, b with
  | Except.error x, Except.error y =>
    if h : x = y then Decidable.isTrue (by rw [h])
    else Decidable.isFalse (fun hc => h (Except.error.inj hc))
  | Except.error _, Except.ok _ => Decidable.isFalse (fun hc => Except.noConfusion hc)
  | Except.ok _, Except.error _ => Decidable.isFalse (fun hc => Except.noConfusion hc)
  | Except.ok x, Except.ok y =>
    if h : x = y then Decidable.isTrue (by rw [h])
    else Decidable.isFalse (fun hc => h (Except.ok.inj hc))

/-- `UPDATE schedule SET last_scheduled_user_id = v` — the statement has
no WHERE clause in the source (round-robin.py lines 76 and 81), so it
touches every row of the `schedule` table. -/
def setAllCursors (db : DB) (v : Option Nat) : DB :=
  { db with schedules :=
      db.schedules.map (fun s => { s with last_scheduled_user_id := v }) }

/-- Erase a schedule row's rotation cursor (used to state frame
properties: everything except the cursor). -/
def clearCursor (s : Schedule) : Schedule :=
  { s with last_scheduled_user_id := none }

/-- Build an event row (helper for stating insertion results). -/
def mkEvent (i tid : Nat) (sid : Option Nat) (s e uid rid : Nat)
    (lk : Option Nat) : Event :=
  { id := i, team_id := tid, schedule_id := sid, start := s, end_ := e,
    user_id := uid, role_id := rid, link_id := lk }

/-- `INSERT INTO event (...) VALUES (...)` with a freshly generated id. -/
def insertEvent (db : DB) (team_id : Nat) (schedule_id : Option Nat)
    (start end_ : Nat) (user_id role_id : Nat) (link_id : Option Nat) : DB :=
  { db with
      events := db.events ++
        [{ id := db.next_id, team_id := team_id, schedule_id := schedule_id,
           start := start, end_ := end_, user_id := user_id,
           role_id := role_id, link_id := link_id }],
      next_id := db.next_id + 1 }

/-- `SELECT user_id FROM roster_user WHERE roster_id = %s AND
in_rotation = TRUE` (round-robin.py lines 26-29). -/
def inRotationIds (db : DB) (roster_id : Nat) : List Nat :=
  (db.roster_user.filter
    (fun r => r.roster_id == roster_id && r.in_rotation)).map (fun r => r.user_id)

/-- The `ORDER BY priority, user_id` ordering on `schedule_order` rows. -/
def soLE (a b : ScheduleOrder) : Prop :=
  a.priority < b.priority ∨ (a.priority = b.priority ∧ a.user_id ≤ b.user_id)

instance : DecidableRel soLE := fun a b => by
  unfold soLE
  exact inferInstance

instance : IsTotal ScheduleOrder soLE where
  total a b := by
    unfold soLE
    rcases Nat.lt_trichotomy a.priority b.priority with h | h | h
    · exact Or.inl (Or.inl h)
    · rcases Nat.le_total a.user_id b.user_id with h2 | h2
      · exact Or.inl (Or.inr ⟨h, h2⟩)
      · exact Or.inr (Or.inr ⟨h.symm, h2⟩)
    · exact Or.inr (Or.inl h)

instance : IsTrans ScheduleOrder soLE where
  trans a b c hab hbc := by
    unfold soLE at *
    rcases hab with h1 | ⟨h1, h1u⟩
    · rcases hbc with h2 | ⟨h2, _⟩
      · exact Or.inl (h1.trans h2)
      · exact Or.inl (h2 ▸ h1)
    · rcases hbc with h2 | ⟨h2, h2u⟩
      · exact Or.inl (h1 ▸ h2)
      · exact Or.inr ⟨h1.trans h2, h1u.trans h2u⟩

/-- The `schedule_order` rows of one schedule, sorted by
`ORDER BY priority, user_id` (round-robin.py lines 31-34). -/
def sortedOrders (db : DB) (sched : Schedule) : List ScheduleOrder :=
  List.insertionSort soLE (db.schedule_order.filter (fun o => o.schedule_id == sched.id))

/-- `roster = [row['user_id'] for row in cursor if row['user_id'] in
roster_users]` (round-robin.py line 35): the priority-ordered user list
restricted to in-rotation roster members. -/
def computeRoster (db : DB) (sched : Schedule) : List Nat :=
  ((sortedOrders db sched).map (fun o => o.user_id)).filter
    (fun u => (inRotationIds db sched.roster_id).contains u)

/-- The start instants of the events qualifying in
`guess_last_scheduled_user`'s SQL query for one user: same team, same
role, start at or before the bound (round-robin.py lines 11-19). -/
def qualStarts (db : DB) (sched : Schedule) (bound : Nat) (u : Nat) : List Nat :=
  (db.events.filter (fun e =>
    e.team_id == sched.team_id && e.user_id == u &&
    decide (e.start ≤ bound) && e.role_id == sched.role_id)).map (fun e => e.start)

/-- `MAX(start)` of the qualifying events of one user, `none` when the
user has no qualifying event. -/
def lastStart (db : DB) (sched : Schedule) (bound : Nat) (u : Nat) : Option Nat :=
  (qualStarts db sched bound u).maximum

/-- Fold selecting the pair with the greatest second component (the SQL
`ORDER BY last_start DESC ... LIMIT 1`); ties keep the earlier entry. -/
def pickBest (c : Nat × Nat) (cs : List (Nat × Nat)) : Nat × Nat :=
  cs.foldl (fun best p => if best.2 < p.2 then p else best) c

/-- `Scheduler.guess_last_scheduled_user` (round-robin.py lines 10-23):
among the roster members with a qualifying event, the one whose most
recent qualifying event is latest. -/
def guess_last_scheduled_user (db : DB) (sched : Schedule) (bound : Nat)
    (roster : List Nat) : Option Nat :=
  match roster.filterMap
      (fun u => (lastStart db sched bound u).map (fun s => (u, s))) with
  | [] => none
  | c :: cs => some (pickBest c cs).1

/-- `roster[(roster.index(lu) + 1) % len(roster)]`
(round-robin.py lines 49-50). -/
def nextAfter (roster : List Nat) (lu : Nat) : Option Nat :=
  some (roster.getD ((roster.indexOf lu + 1) % roster.length) 0)

/-- Lines 44-48 of round-robin.py: the calendar-inference fallback taken
when the stored cursor is NULL or stale.  `min` over an empty generator
raises in Python; that failure is the `Except.error` case. -/
def inferFromCalendar (db : DB) (sched : Schedule) (roster : List Nat)
    (future_events : List Seg) : Except Unit (Option Nat) :=
  match (future_events.map (fun e => e.start)).min? with
  | none => Except.error ()
  | some st =>
    match guess_last_scheduled_user db sched st roster with
    | none => Except.ok (some (roster.headD 0))
    | some g => Except.ok (nextAfter roster g)

/-- `Scheduler.find_next_user_id` (round-robin.py lines 25-50). -/
def find_next_user_id (db : DB) (sched : Schedule)
    (future_events : List Seg) : Except Unit (Option Nat) :=
  match db.schedules.find? (fun r => r.id == sched.id) with
  | none => Except.ok none
  | some row =>
    if (computeRoster db sched).isEmpty then Except.ok none
    else
      match row.last_scheduled_user_id with
      | some lu =>
        if (computeRoster db sched).contains lu then
          Except.ok (nextAfter (computeRoster db sched) lu)
        else inferFromCalendar db sched (computeRoster db sched) future_events
      | none => inferFromCalendar db sched (computeRoster db sched) future_events

/-- `Scheduler.create_events` (round-robin.py lines 52-76): one event
without a link id when the list is a singleton, otherwise one fresh link
id shared by all inserted events; afterwards the WHERE-less cursor
update.  The `skip_match` parameter of the source is accepted and, as in
the source body, never read. -/
def create_events (db : DB) (team_id schedule_id user_id : Nat)
    (events : List Seg) (role_id : Nat) (_skip_match : Bool := true) : DB :=
  let db1 :=
    match events with
    | [e] => insertEvent db team_id (some schedule_id) e.start e.end_ user_id role_id none
    | _ =>
      let link := db.next_link_id
      let db0 := { db with next_link_id := db.next_link_id + 1 }
      events.foldl
        (fun acc e =>
          insertEvent acc team_id (some schedule_id) e.start e.end_ user_id role_id (some link))
        db0
  setAllCursors db1 (some user_id)

/-- Modelled from the spec: the RecurrenceExpander of the base
`default.Scheduler` (not in src/).  Spec 4.1: periods
`[S + k*P, S + (k+1)*P)` for `k = 0 .. ceil(H*86400/P) - 1`, one
`(start, end)` window per template segment at
`period_start + offset .. + offset + duration`. -/
def expandPeriods (template : List TemplateSeg) (P S H : Nat) : List (List Seg) :=
  (List.range ((H * 86400 + P - 1) / P)).map (fun k =>
    template.map (fun t =>
      { start := S + k * P + t.offset,
        end_ := S + k * P + t.offset + t.duration }))

/-- Modelled from the spec: the per-period loop of the base
`default.Scheduler.populate` (not in src/).  Spec 2/4.6: for each period
in chronological order, ask the strategy for the next user (stop when it
returns no candidate), then hand the period's segments to the
EventWriter, which here is the source's `create_events`.  A raised
exception (`Except.error`) aborts the run. -/
def runPeriods (db : DB) (sched : Schedule) : List (List Seg) → Except Unit DB
  | [] => Except.ok db
  | epoch :: rest =>
    match find_next_user_id db sched epoch with
    | Except.error e => Except.error e
    | Except.ok none => Except.ok db
    | Except.ok (some uid) =>
      runPeriods (create_events db sched.team_id sched.id uid epoch sched.role_id) sched rest

/-- Modelled from the spec: the shared populate/preview pipeline of the
base `default.Scheduler` (not in src/), composed with the cursor reset
the round-robin subclass performs first (round-robin.py lines 81 and 87).
Spec 4.6/7: validate the start instant (reject a start earlier than
now minus the horizon) before any write, reset the rotation cursor to
unknown, then run the period loop over the expanded horizon. -/
def pipelineRun (db : DB) (sched : Schedule) (start_time now : Nat) :
    Except PopError DB :=
  if start_time + sched.auto_populate_threshold * 86400 < now then
    Except.error PopError.invalidStart
  else
    match runPeriods (setAllCursors db none) sched
        (expandPeriods sched.template sched.period start_time
          sched.auto_populate_threshold) with
    | Except.error _ => Except.error PopError.dbError
    | Except.ok db1 => Except.ok db1

/-- `Scheduler.populate` (round-robin.py lines 78-82) plus, modelled from
the spec, the base populate's transaction semantics (spec 5/7): the
transaction commits only when the whole run succeeds, so on error the
state is returned unchanged. -/
def populate (db : DB) (sched : Schedule) (start_time now : Nat) :
    Except PopError Unit × DB :=
  match pipelineRun db sched start_time now with
  | Except.error e => (Except.error e, db)
  | Except.ok db1 => (Except.ok (), db1)

/-- `Scheduler.preview` (round-robin.py lines 84-88) plus, modelled from
the spec, the base preview's transaction semantics (spec 4.6): the same
pipeline run inside a transaction that is always rolled back, returning
the would-be events.  The second component is the state after the call:
always the original state. -/
def preview (db : DB) (sched : Schedule) (start_time now : Nat) :
    Except PopError (List Event) × DB :=
  match pipelineRun db sched start_time now with
  | Except.error e => (Except.error e, db)
  | Except.ok db1 => (Except.ok (db1.events.drop db.events.length), db)

/-- An event with its generated identifiers (row id and link id) erased,
for "identical ignoring generated identifiers" comparisons. -/
def eraseIds (e : Event) : Nat × Option Nat × Nat × Nat × Nat × Nat :=
  (e.team_id, e.schedule_id, e.start, e.end_, e.user_id, e.role_id)

/-! ### Frame properties of the state-changing operations -/

/-- What a successful scheduler run may do to the state: append events,
change rotation cursors; everything else is untouched. -/
def FrameOk (db db' : DB) : Prop :=
  (∃ t, db'.events = db.events ++ t) ∧
  db'.schedules.map clearCursor = db.schedules.map clearCursor ∧
  db'.roster_user = db.roster_user ∧
  db'.schedule_order = db.schedule_order

theorem frameOk_refl (db : DB) : FrameOk db db :=
  ⟨⟨[], (List.append_nil db.events).symm⟩, rfl, rfl, rfl⟩

theorem frameOk_trans {a b c : DB} (h1 : FrameOk a b) (h2 : FrameOk b c) :
    FrameOk a c := by
  obtain ⟨⟨t1, ht1⟩, hs1, hr1, ho1⟩ := h1
  obtain ⟨⟨t2, ht2⟩, hs2, hr2, ho2⟩ := h2
  exact ⟨⟨t1 ++ t2, by rw [ht2, ht1, List.append_assoc]⟩,
    hs2.trans hs1, hr2.trans hr1, ho2.trans ho1⟩

theorem frameOk_insertEvent (db : DB) (tid : Nat) (sid : Option Nat)
    (s e uid rid : Nat) (lk : Option Nat) :
    FrameOk db (insertEvent db tid sid s e uid rid lk) :=
  ⟨⟨_, rfl⟩, rfl, rfl, rfl⟩

theorem setAllCursors_schedules (db : DB) (v : Option Nat) :
    (setAllCursors db v).schedules.map clearCursor
      = db.schedules.map clearCursor := by
  show (db.schedules.map _).map clearCursor = _
  rw [List.map_map]
  rfl

theorem frameOk_setAllCursors (db : DB) (v : Option Nat) :
    FrameOk db (setAllCursors db v) :=
  ⟨⟨[], (List.append_nil db.events).symm⟩, setAllCursors_schedules db v, rfl, rfl⟩

theorem frameOk_foldl_insert (tid : Nat) (sid : Option Nat) (uid rid : Nat)
    (lk : Option Nat) :
    ∀ (l : List Seg) (db : DB),
      FrameOk db (l.foldl
        (fun acc e => insertEvent acc tid sid e.start e.end_ uid rid lk) db)
  | [], db => frameOk_refl db
  | e :: es, db =>
    frameOk_trans (frameOk_insertEvent db tid sid e.start e.end_ uid rid lk)
      (frameOk_foldl_insert tid sid uid rid lk es _)

theorem frameOk_bumpLink (db : DB) :
    FrameOk db { db with next_link_id := db.next_link_id + 1 } :=
  ⟨⟨[], (List.append_nil db.events).symm⟩, rfl, rfl, rfl⟩

theorem frameOk_create_events (db : DB) (tid sid uid : Nat) (events : List Seg)
    (rid : Nat) : FrameOk db (create_events db tid sid uid events rid) := by
  unfold create_events
  refine frameOk_trans ?_ (frameOk_setAllCursors _ (some uid))
  match events with
  | [e] => exact frameOk_insertEvent db tid (some sid) e.start e.end_ uid rid none
  | [] => exact frameOk_trans (frameOk_bumpLink db) (frameOk_foldl_insert _ _ _ _ _ [] _)
  | e1 :: e2 :: rest =>
    exact frameOk_trans (frameOk_bumpLink db)
      (frameOk_foldl_insert _ _ _ _ _ (e1 :: e2 :: rest) _)

theorem frameOk_runPeriods :
    ∀ (ps : List (List Seg)) (db db' : DB) (sched : Schedule),
      runPeriods db sched ps = Except.ok db' → FrameOk db db'
  | [], db, db', sched, h => by
    unfold runPeriods at h
    cases h
    exact frameOk_refl _
  | epoch :: rest, db, db', sched, h => by
    unfold runPeriods at h
    cases hf : find_next_user_id db sched epoch with
    | error e => rw [hf] at h; cases h
    | ok r =>
      rw [hf] at h
      cases r with
      | none => cases h; exact frameOk_refl _
      | some uid =>
        exact frameOk_trans
          (frameOk_create_events db sched.team_id sched.id uid epoch sched.role_id)
          (frameOk_runPeriods rest _ db' sched h)

theorem frameOk_pipelineRun (db db' : DB) (sched : Schedule) (s n : Nat)
    (h : pipelineRun db sched s n = Except.ok db') : FrameOk db db' := by
  unfold pipelineRun at h
  by_cases hc : s + sched.auto_populate_threshold * 86400 < n
  · rw [if_pos hc] at h; cases h
  · rw [if_neg hc] at h
    cases hr : runPeriods (setAllCursors db none) sched
        (expandPeriods sched.template sched.period s
          sched.auto_populate_threshold) with
    | error e => rw [hr] at h; cases h
    | ok db1 =>
      rw [hr] at h
      cases h
      exact frameOk_trans (frameOk_setAllCursors db none)
        (frameOk_runPeriods _ _ _ _ hr)

/-! ### Pipeline unfolding equations -/

theorem populate_eq_of_ok (db : DB) (sched : Schedule) (s n : Nat) (db1 : DB)
    (hp : pipelineRun db sched s n = Except.ok db1) :
    populate db sched s n = (Except.ok (), db1) := by
  unfold populate
  rw [hp]

theorem populate_eq_of_error (db : DB) (sched : Schedule) (s n : Nat)
    (e : PopError) (hp : pipelineRun db sched s n = Except.error e) :
    populate db sched s n = (Except.error e, db) := by
  unfold populate
  rw [hp]

theorem preview_eq_of_ok (db : DB) (sched : Schedule) (s n : Nat) (db1 : DB)
    (hp : pipelineRun db sched s n = Except.ok db1) :
    preview db sched s n
      = (Except.ok (db1.events.drop db.events.length), db) := by
  unfold preview
  rw [hp]

theorem preview_eq_of_error (db : DB) (sched : Schedule) (s n : Nat)
    (e : PopError) (hp : pipelineRun db sched s n = Except.error e) :
    preview db sched s n = (Except.error e, db) := by
  unfold preview
  rw [hp]

/-! ### C1: preview/populate equivalence -/

/-- C1: for every state, schedule and start instant, when `preview`
returns an event list it leaves the state unchanged, and an immediately
following `populate` with the same arguments succeeds and persists
exactly that list (ignoring generated identifiers) on top of the existing
events. -/
theorem preview_populate_equiv (db : DB) (sched : Schedule) (s n : Nat)
    (evs : List Event) (h : (preview db sched s n).1 = Except.ok evs) :
    (preview db sched s n).2 = db ∧
    (populate db sched s n).1 = Except.ok () ∧
    (populate db sched s n).2.events.map eraseIds
      = db.events.map eraseIds ++ evs.map eraseIds := by
  cases hp : pipelineRun db sched s n with
  | error e =>
    rw [preview_eq_of_error db sched s n e hp] at h
    exact absurd h (by simp)
  | ok db1 =>
    rw [preview_eq_of_ok db sched s n db1 hp] at h
    have hevs : db1.events.drop db.events.length = evs := by
      simpa using h
    obtain ⟨⟨t, ht⟩, _, _, _⟩ := frameOk_pipelineRun db db1 sched s n hp
    subst hevs
    refine ⟨?_, ?_, ?_⟩
    · rw [preview_eq_of_ok db sched s n db1 hp]
    · rw [populate_eq_of_ok db sched s n db1 hp]
    · rw [populate_eq_of_ok db sched s n db1 hp]
      show db1.events.map eraseIds = _
      rw [ht, List.drop_left, List.map_append]

def schedW : Schedule :=
  { id := 40, team_id := 10, roster_id := 30, role_id := 20,
    last_scheduled_user_id := none, auto_populate_threshold := 14,
    advanced_mode := false, template := [{ offset := 0, duration := 604800 }],
    period := 604800 }

def dbW : DB :=
  { events := [], schedules := [schedW],
    roster_user := [{ roster_id := 30, user_id := 1, in_rotation := true },
                    { roster_id := 30, user_id := 2, in_rotation := true }],
    schedule_order := [{ schedule_id := 40, user_id := 1, priority := 0 },
                       { schedule_id := 40, user_id := 2, priority := 1 }],
    next_id := 0, next_link_id := 0 }

def ev0W : Event :=
  { id := 0, team_id := 10, schedule_id := some 40, start := 1000,
    end_ := 605800, user_id := 1, role_id := 20, link_id := none }

def ev1W : Event :=
  { id := 1, team_id := 10, schedule_id := some 40, start := 605800,
    end_ := 1210600, user_id := 2, role_id := 20, link_id := none }

/-- Witness for C1: on a two-user weekly schedule over a 14-day horizon,
preview returns the two events that populate then persists. -/
theorem preview_populate_equiv_witness :
    (preview dbW schedW 1000 1000).2 = dbW ∧
    (populate dbW schedW 1000 1000).1 = Except.ok () ∧
    (populate dbW schedW 1000 1000).2.events.map eraseIds
      = dbW.events.map eraseIds ++ [ev0W, ev1W].map eraseIds :=
  preview_populate_equiv dbW schedW 1000 1000 [ev0W, ev1W] (by decide)

/-! ### C9: invalid start -/

/-- C9: a start instant earlier than now minus the schedule's horizon is
rejected with the invalid-start client error, and neither populate nor
preview mutates any state in that case. -/
theorem populate_invalid_start_rejected (db : DB) (sched : Schedule)
    (s n : Nat) (h : s + sched.auto_populate_threshold * 86400 < n) :
    populate db sched s n = (Except.error PopError.invalidStart, db) ∧
    preview db sched s n = (Except.error PopError.invalidStart, db) := by
  have hp : pipelineRun db sched s n = Except.error PopError.invalidStart := by
    unfold pipelineRun
    rw [if_pos h]
  exact ⟨populate_eq_of_error db sched s n _ hp,
    preview_eq_of_error db sched s n _ hp⟩

/-- Witness for C9: start 0 with a 14-day horizon at now = 2000000 (past
the lower bound) is rejected and the state is returned untouched. -/
theorem populate_invalid_start_rejected_witness :
    populate dbW schedW 0 2000000 = (Except.error PopError.invalidStart, dbW) ∧
    preview dbW schedW 0 2000000 = (Except.error PopError.invalidStart, dbW) :=
  populate_invalid_start_rejected dbW schedW 0 2000000 (by decide)

/-! ### C3: cursor-free determinism -/

theorem setAllCursors_none_congr (db1 db2 : DB)
    (he : db1.events = db2.events) (hr : db1.roster_user = db2.roster_user)
    (ho : db1.schedule_order = db2.schedule_order)
    (hi : db1.next_id = db2.next_id) (hl : db1.next_link_id = db2.next_link_id)
    (hs : db1.schedules.map clearCursor = db2.schedules.map clearCursor) :
    setAllCursors db1 none = setAllCursors db2 none := by
  cases db1
  cases db2
  dsimp only at he hr ho hi hl hs
  subst he
  subst hr
  subst ho
  subst hi
  subst hl
  unfold setAllCursors
  simp only [DB.mk.injEq, and_true, true_and]
  exact hs

/-- C3: the result of a populate or preview run does not depend on the
stored rotation cursors: two states that agree on everything except the
persisted `last_scheduled_user_id` values produce identical pipeline
results, identical populate outcomes and identical preview event lists,
because both entry points reset every cursor before doing anything
else. -/
theorem populate_cursor_independent (db1 db2 : DB) (sched : Schedule)
    (s n : Nat)
    (he : db1.events = db2.events) (hr : db1.roster_user = db2.roster_user)
    (ho : db1.schedule_order = db2.schedule_order)
    (hi : db1.next_id = db2.next_id) (hl : db1.next_link_id = db2.next_link_id)
    (hs : db1.schedules.map clearCursor = db2.schedules.map clearCursor) :
    pipelineRun db1 sched s n = pipelineRun db2 sched s n ∧
    (populate db1 sched s n).1 = (populate db2 sched s n).1 ∧
    (preview db1 sched s n).1 = (preview db2 sched s n).1 := by
  have hreset := setAllCursors_none_congr db1 db2 he hr ho hi hl hs
  have hrun : pipelineRun db1 sched s n = pipelineRun db2 sched s n := by
    unfold pipelineRun
    rw [hreset]
  refine ⟨hrun, ?_, ?_⟩
  · unfold populate
    rw [hrun]
    cases pipelineRun db2 sched s n <;> rfl
  · unfold preview
    rw [hrun, he]
    cases pipelineRun db2 sched s n <;> rfl

def dbWcursor : DB :=
  { dbW with schedules := [{ schedW with last_scheduled_user_id := some 7 }] }

/-- Witness for C3: a leftover cursor value `some 7` versus a null cursor
gives the same populate and preview results. -/
theorem populate_cursor_independent_witness :
    pipelineRun dbW schedW 1000 1000 = pipelineRun dbWcursor schedW 1000 1000 ∧
    (populate dbW schedW 1000 1000).1 = (populate dbWcursor schedW 1000 1000).1 ∧
    (preview dbW schedW 1000 1000).1 = (preview dbWcursor schedW 1000 1000).1 :=
  populate_cursor_independent dbW dbWcursor schedW 1000 1000
    (by decide) (by decide) (by decide) (by decide) (by decide) (by decide)

/-! ### C4: what populate mutates -/

/-- C4 (amended): a successful populate call only appends events and
rewrites rotation cursors: every schedule field other than the cursor,
and the roster and priority tables, are unchanged.  (The cursor write is
global, not limited to the populated schedule — see the counterexample
theorem.) -/
theorem populate_frame (db : DB) (sched : Schedule) (s n : Nat) (db' : DB)
    (h : populate db sched s n = (Except.ok (), db')) :
    (∃ t, db'.events = db.events ++ t) ∧
    db'.schedules.map clearCursor = db.schedules.map clearCursor ∧
    db'.roster_user = db.roster_user ∧
    db'.schedule_order = db.schedule_order := by
  cases hp : pipelineRun db sched s n with
  | error e =>
    rw [populate_eq_of_error db sched s n e hp] at h
    exact absurd (congrArg Prod.fst h) (by simp)
  | ok db1 =>
    rw [populate_eq_of_ok db sched s n db1 hp] at h
    have hdb : db1 = db' := congrArg Prod.snd h
    subst hdb
    exact frameOk_pipelineRun db db1 sched s n hp

/-- Witness for C4 (amended): the concrete two-user run only appends the
two generated events and rewrites cursors. -/
theorem populate_frame_witness :
    (∃ t, (populate dbW schedW 1000 1000).2.events = dbW.events ++ t) ∧
    (populate dbW schedW 1000 1000).2.schedules.map clearCursor
      = dbW.schedules.map clearCursor ∧
    (populate dbW schedW 1000 1000).2.roster_user = dbW.roster_user ∧
    (populate dbW schedW 1000 1000).2.schedule_order = dbW.schedule_order :=
  populate_frame dbW schedW 1000 1000 (populate dbW schedW 1000 1000).2 (by decide)

def schedOther : Schedule :=
  { id := 41, team_id := 11, roster_id := 31, role_id := 21,
    last_scheduled_user_id := some 99, auto_populate_threshold := 14,
    advanced_mode := false, template := [], period := 604800 }

def dbTwoSchedules : DB :=
  { dbW with schedules := [schedW, schedOther] }

/-- Counterexample to C4 as stated: populating schedule 40 rewrites the
rotation cursor of the unrelated schedule 41 (the `UPDATE schedule SET
last_scheduled_user_id = ...` statements in the source carry no WHERE
clause), so a schedule other than the one being populated is mutated. -/
theorem populate_mutates_other_schedule :
    (populate dbTwoSchedules schedW 1000 1000).1 = Except.ok () ∧
    ((populate dbTwoSchedules schedW 1000 1000).2.schedules.filter
        (fun r => r.id == 41)).map (fun r => r.last_scheduled_user_id)
      ≠ [some 99] := by
  decide

/-! ### C2: idempotent coverage -/

def manualEvent : Event :=
  { id := 100, team_id := 10, schedule_id := none, start := 1000,
    end_ := 605800, user_id := 1, role_id := 20, link_id := none }

def dbCovered : DB :=
  { dbW with events := [manualEvent], next_id := 101 }

/-- C2 fails on the code: with a manually created event already covering
the exact (team, role, start, end) of the first generated segment,
re-running populate inserts a second event for that segment anyway — the
round-robin `create_events` accepts `skip_match=True` but never reads it,
so after the run two events share the covered (team, role, start, end). -/
theorem populate_duplicates_covered_segment :
    (populate dbCovered schedW 1000 1000).1 = Except.ok () ∧
    ((populate dbCovered schedW 1000 1000).2.events.filter (fun e =>
        e.team_id == 10 && e.role_id == 20 && e.start == 1000 &&
        e.end_ == 605800)).length = 2 := by
  decide

/-! ### C8: link id policy of create_events -/

theorem foldl_insert_events (tid : Nat) (sid : Option Nat) (uid rid : Nat)
    (lk : Option Nat) :
    ∀ (l : List Seg) (db : DB),
      ∃ t,
        (l.foldl
          (fun acc e => insertEvent acc tid sid e.start e.end_ uid rid lk)
          db).events = db.events ++ t ∧
        t.length = l.length ∧ ∀ e2 ∈ t, e2.link_id = lk
  | [], db => ⟨[], by simp, rfl, by intro e2 h; cases h⟩
  | e :: es, db => by
    obtain ⟨t, ht, hlen, hmem⟩ := foldl_insert_events tid sid uid rid lk es
      (insertEvent db tid sid e.start e.end_ uid rid lk)
    refine ⟨mkEvent db.next_id tid sid e.start e.end_ uid rid lk :: t, ?_, ?_, ?_⟩
    · show (es.foldl _ (insertEvent db tid sid e.start e.end_ uid rid lk)).events = _
      rw [ht]
      show (db.events ++ [_]) ++ t = _
      rw [List.append_assoc]
      rfl
    · simp [hlen]
    · intro e2 he2
      rcases List.mem_cons.mp he2 with h1 | h1
      · rw [h1]
        rfl
      · exact hmem e2 h1

/-- C8: when `create_events` writes a period, a single-segment period is
inserted without a link id, while a period of two or more segments gets
all its events tagged with one shared link id that no pre-existing event
carries (freshness holds under the invariant that all stored link ids
are below the generator counter). -/
theorem create_events_link_id_policy (db : DB) (tid sid uid : Nat)
    (events : List Seg) (rid : Nat)
    (hfresh : ∀ e ∈ db.events, ∀ l, e.link_id = some l → l < db.next_link_id) :
    (∀ ev, events = [ev] →
      (create_events db tid sid uid events rid).events
        = db.events ++ [mkEvent db.next_id tid (some sid) ev.start ev.end_ uid rid none]) ∧
    (2 ≤ events.length →
      ∃ lk t,
        (create_events db tid sid uid events rid).events = db.events ++ t ∧
        t.length = events.length ∧
        (∀ e2 ∈ t, e2.link_id = some lk) ∧
        ∀ e0 ∈ db.events, e0.link_id ≠ some lk) := by
  constructor
  · intro ev hev
    subst hev
    rfl
  · intro hlen
    match events, hlen with
    | e1 :: e2 :: rest, _ =>
      obtain ⟨t, ht, htlen, hmem⟩ := foldl_insert_events tid (some sid) uid rid
        (some db.next_link_id) (e1 :: e2 :: rest)
        { db with next_link_id := db.next_link_id + 1 }
      refine ⟨db.next_link_id, t, ?_, htlen, hmem, ?_⟩
      · exact ht
      · intro e0 he0 hcontra
        exact absurd (hfresh e0 he0 db.next_link_id hcontra)
          (Nat.lt_irrefl db.next_link_id)

/-- Witness for C8 at a concrete two-segment period on the two-user
state: applies the link-id policy theorem with the freshness invariant
discharged by computation. -/
theorem create_events_link_id_policy_witness :
    (∀ ev, ([{ start := 0, end_ := 10 }, { start := 10, end_ := 20 }] : List Seg) = [ev] →
      (create_events dbW 10 40 1
        [{ start := 0, end_ := 10 }, { start := 10, end_ := 20 }] 20).events
        = dbW.events ++ [mkEvent dbW.next_id 10 (some 40) ev.start ev.end_ 1 20 none]) ∧
    (2 ≤ ([{ start := 0, end_ := 10 }, { start := 10, end_ := 20 }] : List Seg).length →
      ∃ lk t,
        (create_events dbW 10 40 1
          [{ start := 0, end_ := 10 }, { start := 10, end_ := 20 }] 20).events
          = dbW.events ++ t ∧
        t.length = ([{ start := 0, end_ := 10 }, { start := 10, end_ := 20 }] : List Seg).length ∧
        (∀ e2 ∈ t, e2.link_id = some lk) ∧
        ∀ e0 ∈ dbW.events, e0.link_id ≠ some lk) :=
  create_events_link_id_policy dbW 10 40 1
    [{ start := 0, end_ := 10 }, { start := 10, end_ := 20 }] 20 (by decide)

/-! ### C10: totality of find_next_user_id -/

theorem inferFromCalendar_ne_error (db : DB) (sched : Schedule)
    (roster : List Nat) (evs : List Seg) (h : evs ≠ []) :
    inferFromCalendar db sched roster evs ≠ Except.error () := by
  intro hc
  unfold inferFromCalendar at hc
  split at hc
  · rename_i heq
    exact h (List.map_eq_nil_iff.mp (List.min?_eq_none_iff.mp heq))
  · split at hc
    · cases hc
    · cases hc

theorem inferFromCalendar_nil_eq_error (db : DB) (sched : Schedule)
    (roster : List Nat) :
    inferFromCalendar db sched roster [] = Except.error () := rfl

theorem find_next_eq_none_of_not_found (db : DB) (sched : Schedule)
    (evs : List Seg)
    (hfind : db.schedules.find? (fun r => r.id == sched.id) = none) :
    find_next_user_id db sched evs = Except.ok none := by
  unfold find_next_user_id
  rw [hfind]

theorem find_next_eq_of_found (db : DB) (sched : Schedule) (evs : List Seg)
    (row : Schedule)
    (hfind : db.schedules.find? (fun r => r.id == sched.id) = some row) :
    find_next_user_id db sched evs =
      (if (computeRoster db sched).isEmpty then Except.ok none
       else
        match row.last_scheduled_user_id with
        | some lu =>
          if (computeRoster db sched).contains lu then
            Except.ok (nextAfter (computeRoster db sched) lu)
          else inferFromCalendar db sched (computeRoster db sched) evs
        | none => inferFromCalendar db sched (computeRoster db sched) evs) := by
  unfold find_next_user_id
  rw [hfind]

/-- C10 (amended): `find_next_user_id` can only fail through the `min`
over the period's event starts: when the schedule row exists, the
computed roster is non-empty, and the stored cursor is NULL or names a
user outside the roster, the call fails exactly on an empty
`future_events`; whenever `future_events` is non-empty the failure
branch is unreachable. -/
theorem find_next_user_id_totality (db : DB) (sched : Schedule)
    (evs : List Seg) :
    (evs ≠ [] → find_next_user_id db sched evs ≠ Except.error ()) ∧
    (∀ row, db.schedules.find? (fun r => r.id == sched.id) = some row →
      (computeRoster db sched).isEmpty = false →
      (row.last_scheduled_user_id = none ∨
        ∀ x, row.last_scheduled_user_id = some x →
          (computeRoster db sched).contains x = false) →
      evs = [] →
      find_next_user_id db sched evs = Except.error ()) := by
  constructor
  · intro hne hc
    cases hfind : db.schedules.find? (fun r => r.id == sched.id) with
    | none =>
      rw [find_next_eq_none_of_not_found db sched evs hfind] at hc
      cases hc
    | some row =>
      rw [find_next_eq_of_found db sched evs row hfind] at hc
      split at hc
      · cases hc
      · split at hc
        · split at hc
          · cases hc
          · exact inferFromCalendar_ne_error db sched _ evs hne hc
        · exact inferFromCalendar_ne_error db sched _ evs hne hc
  · intro row hfind hro hstale hevs
    subst hevs
    have hne : ¬ ((computeRoster db sched).isEmpty = true) := by
      rw [hro]
      exact Bool.false_ne_true
    rw [find_next_eq_of_found db sched [] row hfind, if_neg hne]
    split
    · rename_i lu hlu
      have hcf : (computeRoster db sched).contains lu = false := by
        rcases hstale with h | h
        · rw [h] at hlu
          cases hlu
        · exact h lu hlu
      have hcn : ¬ ((computeRoster db sched).contains lu = true) := by
        rw [hcf]
        exact Bool.false_ne_true
      rw [if_neg hcn]
      exact inferFromCalendar_nil_eq_error db sched _
    · exact inferFromCalendar_nil_eq_error db sched _

def schedNoOrder : Schedule :=
  { id := 50, team_id := 10, roster_id := 30, role_id := 20,
    last_scheduled_user_id := none, auto_populate_threshold := 14,
    advanced_mode := false, template := [{ offset := 0, duration := 604800 }],
    period := 604800 }

def dbNoOrder : DB :=
  { dbW with schedules := [schedNoOrder] }

/-- Counterexample to C10 as stated: a schedule whose stored cursor is
NULL, called with an empty `future_events`, yet the operation does not
fail — the empty roster is detected first and `None` is returned. -/
theorem find_next_user_id_no_failure_empty_roster :
    (dbNoOrder.schedules.find? (fun r => r.id == schedNoOrder.id)).isSome = true ∧
    schedNoOrder.last_scheduled_user_id = none ∧
    find_next_user_id dbNoOrder schedNoOrder [] = Except.ok none := by
  decide

/-- Witness for C10 (amended), at the two-user schedule: a non-empty
`future_events` never hits the failure branch, and with a NULL cursor and
empty `future_events` the call fails. -/
theorem find_next_user_id_totality_witness :
    find_next_user_id dbW schedW [{ start := 1000, end_ := 2000 }]
      ≠ Except.error () ∧
    find_next_user_id dbW schedW [] = Except.error () :=
  ⟨(find_next_user_id_totality dbW schedW
      [{ start := 1000, end_ := 2000 }]).1 (by decide),
   (find_next_user_id_totality dbW schedW []).2 schedW (by decide) (by decide)
     (Or.inl (by decide)) rfl⟩

/-! ### C7: roster computation -/

theorem mem_inRotationIds (db : DB) (rid u : Nat) :
    u ∈ inRotationIds db rid ↔
      ∃ rr ∈ db.roster_user,
        rr.roster_id = rid ∧ rr.user_id = u ∧ rr.in_rotation = true := by
  unfold inRotationIds
  simp only [List.mem_map, List.mem_filter, Bool.and_eq_true, beq_iff_eq]
  constructor
  · rintro ⟨rr, ⟨hmem, hrid, hrot⟩, huid⟩
    exact ⟨rr, hmem, hrid, huid, hrot⟩
  · rintro ⟨rr, hmem, hrid, huid, hrot⟩
    exact ⟨rr, ⟨hmem, hrid, hrot⟩, huid⟩

theorem mem_computeRoster (db : DB) (sched : Schedule) (u : Nat) :
    u ∈ computeRoster db sched ↔
      ((∃ o ∈ db.schedule_order, o.schedule_id = sched.id ∧ o.user_id = u) ∧
       ∃ rr ∈ db.roster_user,
         rr.roster_id = sched.roster_id ∧ rr.user_id = u ∧
         rr.in_rotation = true) := by
  unfold computeRoster sortedOrders
  rw [List.mem_filter, List.elem_iff, mem_inRotationIds]
  rw [List.mem_map]
  constructor
  · rintro ⟨⟨o, ho, huid⟩, hrot⟩
    have hmem : o ∈ db.schedule_order.filter (fun o => o.schedule_id == sched.id) :=
      (List.perm_insertionSort soLE _).mem_iff.mp ho
    rw [List.mem_filter, beq_iff_eq] at hmem
    exact ⟨⟨o, hmem.1, hmem.2, huid⟩, hrot⟩
  · rintro ⟨⟨o, ho, hsid, huid⟩, hrot⟩
    refine ⟨⟨o, ?_, huid⟩, hrot⟩
    refine (List.perm_insertionSort soLE _).mem_iff.mpr ?_
    rw [List.mem_filter, beq_iff_eq]
    exact ⟨ho, hsid⟩

theorem computeRoster_empty_of_empty (db : DB) (sched : Schedule)
    (h : db.schedule_order.filter (fun o => o.schedule_id == sched.id) = [] ∨
      inRotationIds db sched.roster_id = []) :
    computeRoster db sched = [] := by
  unfold computeRoster sortedOrders
  rcases h with h | h
  · rw [h]
    rfl
  · rw [h]
    rw [List.filter_eq_nil_iff]
    intro a _
    simp

theorem find_next_ok_none_of_empty_roster (db : DB) (sched : Schedule)
    (evs : List Seg) (h : computeRoster db sched = []) :
    find_next_user_id db sched evs = Except.ok none := by
  cases hfind : db.schedules.find? (fun r => r.id == sched.id) with
  | none => exact find_next_eq_none_of_not_found db sched evs hfind
  | some row =>
    rw [find_next_eq_of_found db sched evs row hfind]
    rw [if_pos]
    rw [h]
    rfl

/-- C7: the eligible rotation roster is exactly the in-rotation roster
members that appear in the schedule's priority table, listed in the
order of the priority rows sorted by priority then user id; an empty
priority table or an empty in-rotation roster yields the empty sequence,
and `find_next_user_id` then returns no candidate rather than failing. -/
theorem computeRoster_spec (db : DB) (sched : Schedule) (evs : List Seg) :
    (∀ u, u ∈ computeRoster db sched ↔
      ((∃ o ∈ db.schedule_order, o.schedule_id = sched.id ∧ o.user_id = u) ∧
       ∃ rr ∈ db.roster_user,
         rr.roster_id = sched.roster_id ∧ rr.user_id = u ∧
         rr.in_rotation = true)) ∧
    List.Sorted soLE (sortedOrders db sched) ∧
    (sortedOrders db sched).Perm
      (db.schedule_order.filter (fun o => o.schedule_id == sched.id)) ∧
    computeRoster db sched
      = ((sortedOrders db sched).map (fun o => o.user_id)).filter
          (fun u => (inRotationIds db sched.roster_id).contains u) ∧
    ((db.schedule_order.filter (fun o => o.schedule_id == sched.id) = [] ∨
      inRotationIds db sched.roster_id = []) →
      computeRoster db sched = [] ∧
      find_next_user_id db sched evs = Except.ok none) := by
  refine ⟨mem_computeRoster db sched, ?_, ?_, rfl, ?_⟩
  · exact List.sorted_insertionSort soLE _
  · exact List.perm_insertionSort soLE _
  · intro h
    have hcr := computeRoster_empty_of_empty db sched h
    exact ⟨hcr, find_next_ok_none_of_empty_roster db sched evs hcr⟩

/-- Witness for C7 on the two-user state: membership, sortedness and the
empty-table behaviour instantiated at the concrete schedule. -/
theorem computeRoster_spec_witness :
    (2 ∈ computeRoster dbW schedW ↔
      ((∃ o ∈ dbW.schedule_order, o.schedule_id = schedW.id ∧ o.user_id = 2) ∧
       ∃ rr ∈ dbW.roster_user,
         rr.roster_id = schedW.roster_id ∧ rr.user_id = 2 ∧
         rr.in_rotation = true)) ∧
    List.Sorted soLE (sortedOrders dbW schedW) ∧
    computeRoster dbNoOrder schedNoOrder = [] ∧
    find_next_user_id dbNoOrder schedNoOrder [] = Except.ok none :=
  ⟨(computeRoster_spec dbW schedW []).1 2,
   (computeRoster_spec dbW schedW []).2.1,
   ((computeRoster_spec dbNoOrder schedNoOrder []).2.2.2.2 (Or.inl (by decide))).1,
   ((computeRoster_spec dbNoOrder schedNoOrder []).2.2.2.2 (Or.inl (by decide))).2⟩

/-! ### C6: calendar inference of the last scheduled user -/

/-- An event qualifying in the calendar-inference query: same team, given
user, start at or before the bound, same role. -/
def evQual (sched : Schedule) (bound u : Nat) (e : Event) : Prop :=
  e.team_id = sched.team_id ∧ e.user_id = u ∧ e.start ≤ bound ∧
  e.role_id = sched.role_id

instance (sched : Schedule) (bound u : Nat) (e : Event) :
    Decidable (evQual sched bound u e) := by
  unfold evQual
  exact inferInstance

theorem qualStarts_mem (db : DB) (sched : Schedule) (bound u s : Nat) :
    s ∈ qualStarts db sched bound u ↔
      ∃ e ∈ db.events, evQual sched bound u e ∧ e.start = s := by
  unfold qualStarts evQual
  simp only [List.mem_map, List.mem_filter, Bool.and_eq_true, beq_iff_eq,
    decide_eq_true_eq]
  constructor
  · rintro ⟨e, ⟨hm, ⟨⟨ht, hu⟩, hs⟩, hr⟩, hst⟩
    exact ⟨e, hm, ⟨ht, hu, hs, hr⟩, hst⟩
  · rintro ⟨e, hm, ⟨ht, hu, hs, hr⟩, hst⟩
    exact ⟨e, ⟨hm, ⟨⟨ht, hu⟩, hs⟩, hr⟩, hst⟩

theorem lastStart_some (db : DB) (sched : Schedule) (bound u s : Nat)
    (h : lastStart db sched bound u = some s) :
    (∃ e ∈ db.events, evQual sched bound u e ∧ e.start = s) ∧
    ∀ s2 ∈ qualStarts db sched bound u, s2 ≤ s := by
  unfold lastStart at h
  constructor
  · exact (qualStarts_mem db sched bound u s).mp (List.maximum_mem h)
  · intro s2 hs2
    exact List.le_maximum_of_mem hs2 h

theorem lastStart_none (db : DB) (sched : Schedule) (bound u : Nat)
    (h : lastStart db sched bound u = none) :
    ∀ e ∈ db.events, ¬ evQual sched bound u e := by
  intro e he hq
  have hmem : e.start ∈ qualStarts db sched bound u :=
    (qualStarts_mem db sched bound u e.start).mpr ⟨e, he, hq, rfl⟩
  unfold lastStart at h
  rw [List.maximum_eq_none] at h
  rw [h] at hmem
  cases hmem

theorem pickBest_mem : ∀ (cs : List (Nat × Nat)) (c : Nat × Nat),
    pickBest c cs ∈ c :: cs
  | [], c => List.mem_singleton.mpr rfl
  | p :: ps, c => by
    have heq : pickBest c (p :: ps) = pickBest (if c.2 < p.2 then p else c) ps := rfl
    rw [heq]
    have h := pickBest_mem ps (if c.2 < p.2 then p else c)
    rcases List.mem_cons.mp h with h1 | h1
    · rw [h1]
      by_cases hc : c.2 < p.2
      · rw [if_pos hc]
        exact List.mem_cons_of_mem _ (List.mem_cons_self _ _)
      · rw [if_neg hc]
        exact List.mem_cons_self _ _
    · exact List.mem_cons_of_mem _ (List.mem_cons_of_mem _ h1)

theorem pickBest_le : ∀ (cs : List (Nat × Nat)) (c : Nat × Nat),
    ∀ q ∈ c :: cs, q.2 ≤ (pickBest c cs).2
  | [], c => by
    intro q hq
    rcases List.mem_cons.mp hq with h | h
    · rw [h]
      exact Nat.le_refl _
    · cases h
  | p :: ps, c => by
    intro q hq
    have heq : pickBest c (p :: ps) = pickBest (if c.2 < p.2 then p else c) ps := rfl
    rw [heq]
    have hIH := pickBest_le ps (if c.2 < p.2 then p else c)
    have hhead : (if c.2 < p.2 then p else c).2
        ≤ (pickBest (if c.2 < p.2 then p else c) ps).2 :=
      hIH _ (List.mem_cons_self _ _)
    rcases List.mem_cons.mp hq with h | hq2
    · rw [h]
      refine le_trans ?_ hhead
      by_cases hc : c.2 < p.2
      · rw [if_pos hc]
        exact Nat.le_of_lt hc
      · rw [if_neg hc]
    · rcases List.mem_cons.mp hq2 with h | hq3
      · rw [h]
        refine le_trans ?_ hhead
        by_cases hc : c.2 < p.2
        · rw [if_pos hc]
        · rw [if_neg hc]
          exact Nat.le_of_not_lt hc
      · exact hIH q (List.mem_cons_of_mem _ hq3)

theorem mem_guess_candidates (db : DB) (sched : Schedule) (bound : Nat)
    (roster : List Nat) (p : Nat × Nat) :
    p ∈ roster.filterMap
        (fun v => (lastStart db sched bound v).map (fun s => (v, s))) ↔
      p.1 ∈ roster ∧ lastStart db sched bound p.1 = some p.2 := by
  rw [List.mem_filterMap]
  constructor
  · rintro ⟨a, ha, hfa⟩
    obtain ⟨s, hls, heq⟩ := Option.map_eq_some'.mp hfa
    cases heq
    exact ⟨ha, hls⟩
  · rintro ⟨hmem, hls⟩
    exact ⟨p.1, hmem, by rw [hls]; rfl⟩

/-- C6: when the stored cursor is NULL or names a user outside the
computed roster, `find_next_user_id` falls back to the calendar
inference, and `guess_last_scheduled_user` returns a roster member with
a qualifying event (same team and role, start at or before the bound)
whose start is at least that of every qualifying event of every roster
member; it returns `none` exactly when no roster member has any
qualifying event. -/
theorem guess_last_scheduled_user_spec (db : DB) (sched : Schedule)
    (evs : List Seg) (roster : List Nat) (bound : Nat) :
    (∀ u, guess_last_scheduled_user db sched bound roster = some u →
      u ∈ roster ∧ ∃ e ∈ db.events, evQual sched bound u e ∧
        ∀ v ∈ roster, ∀ e2 ∈ db.events, evQual sched bound v e2 →
          e2.start ≤ e.start) ∧
    (guess_last_scheduled_user db sched bound roster = none →
      ∀ v ∈ roster, ∀ e2 ∈ db.events, ¬ evQual sched bound v e2) ∧
    (∀ row, db.schedules.find? (fun r => r.id == sched.id) = some row →
      (computeRoster db sched).isEmpty = false →
      (row.last_scheduled_user_id = none ∨
        ∀ x, row.last_scheduled_user_id = some x →
          (computeRoster db sched).contains x = false) →
      find_next_user_id db sched evs
        = inferFromCalendar db sched (computeRoster db sched) evs) := by
  refine ⟨?_, ?_, ?_⟩
  · intro u hg
    unfold guess_last_scheduled_user at hg
    cases hc : roster.filterMap
        (fun v => (lastStart db sched bound v).map (fun s => (v, s))) with
    | nil =>
      rw [hc] at hg
      cases hg
    | cons c cs =>
      rw [hc] at hg
      have hu : (pickBest c cs).1 = u := Option.some.inj hg
      have hbm : pickBest c cs ∈ c :: cs := pickBest_mem cs c
      rw [← hc] at hbm
      obtain ⟨hmem, hls⟩ := (mem_guess_candidates db sched bound roster _).mp hbm
      rw [hu] at hmem hls
      obtain ⟨⟨e, he, hq, hst⟩, _⟩ := lastStart_some db sched bound u _ hls
      refine ⟨hmem, e, he, hq, ?_⟩
      intro v hv e2 he2 hq2
      have h1 : e2.start ∈ qualStarts db sched bound v :=
        (qualStarts_mem db sched bound v e2.start).mpr ⟨e2, he2, hq2, rfl⟩
      cases hlv : lastStart db sched bound v with
      | none => exact absurd hq2 (lastStart_none db sched bound v hlv e2 he2)
      | some sv =>
        have h2 : e2.start ≤ sv :=
          (lastStart_some db sched bound v sv hlv).2 e2.start h1
        have h3 : (v, sv) ∈ c :: cs := by
          have hm2 := (mem_guess_candidates db sched bound roster (v, sv)).mpr
            ⟨hv, hlv⟩
          rw [hc] at hm2
          exact hm2
        have h4 : sv ≤ (pickBest c cs).2 := pickBest_le cs c _ h3
        rw [hst]
        exact h2.trans h4
  · intro hg v hv e2 he2 hq2
    unfold guess_last_scheduled_user at hg
    cases hc : roster.filterMap
        (fun v => (lastStart db sched bound v).map (fun s => (v, s))) with
    | cons c cs =>
      rw [hc] at hg
      cases hg
    | nil =>
      have hnone := List.filterMap_eq_nil_iff.mp hc v hv
      have hln : lastStart db sched bound v = none :=
        Option.map_eq_none'.mp hnone
      exact lastStart_none db sched bound v hln e2 he2 hq2
  · intro row hfind hro hstale
    rw [find_next_eq_of_found db sched evs row hfind]
    have hne : ¬ ((computeRoster db sched).isEmpty = true) := by
      rw [hro]
      exact Bool.false_ne_true
    rw [if_neg hne]
    split
    · rename_i lu hlu
      have hcf : (computeRoster db sched).contains lu = false := by
        rcases hstale with h | h
        · rw [h] at hlu
          cases hlu
        · exact h lu hlu
      have hcn : ¬ ((computeRoster db sched).contains lu = true) := by
        rw [hcf]
        exact Bool.false_ne_true
      rw [if_neg hcn]
    · rfl

/-- Witness for C6: with a manual event for user 1 at start 1000, the
inference returns user 1 (maximal qualifying event), and a NULL-cursor
schedule routes `find_next_user_id` through the calendar inference. -/
theorem guess_last_scheduled_user_spec_witness :
    (1 ∈ [1, 2] ∧ ∃ e ∈ dbCovered.events, evQual schedW 1000 1 e ∧
      ∀ v ∈ [1, 2], ∀ e2 ∈ dbCovered.events, evQual schedW 1000 v e2 →
        e2.start ≤ e.start) ∧
    find_next_user_id dbCovered schedW [{ start := 1000, end_ := 2000 }]
      = inferFromCalendar dbCovered schedW (computeRoster dbCovered schedW)
          [{ start := 1000, end_ := 2000 }] :=
  ⟨(guess_last_scheduled_user_spec dbCovered schedW
      [{ start := 1000, end_ := 2000 }] [1, 2] 1000).1 1 (by decide),
   (guess_last_scheduled_user_spec dbCovered schedW
      [{ start := 1000, end_ := 2000 }] [1, 2] 1000).2.2 schedW (by decide)
      (by decide) (Or.inl (by decide))⟩

/-! ### C5: round-robin successor selection -/

/-- C5: when the stored cursor names a user at position `i` of the
computed roster (no duplicates), the selected user is the one at
position `(i + 1) mod N`, wrapping cyclically; and when the cursor is
NULL and no roster member has any qualifying calendar event at or before
the earliest period start, the pick is the first roster member. -/
theorem find_next_user_id_round_robin (db : DB) (sched : Schedule)
    (evs : List Seg) (row : Schedule) (i lu bound : Nat)
    (hfind : db.schedules.find? (fun r => r.id == sched.id) = some row) :
    (row.last_scheduled_user_id = some lu →
      (computeRoster db sched).Nodup →
      (computeRoster db sched).get? i = some lu →
      find_next_user_id db sched evs
        = Except.ok ((computeRoster db sched).get?
            ((i + 1) % (computeRoster db sched).length))) ∧
    (row.last_scheduled_user_id = none →
      computeRoster db sched ≠ [] →
      (evs.map (fun e => e.start)).min? = some bound →
      (∀ v ∈ computeRoster db sched, ∀ e ∈ db.events,
        ¬ evQual sched bound v e) →
      find_next_user_id db sched evs
        = Except.ok (some ((computeRoster db sched).headD 0))) := by
  constructor
  · intro hlu hnd hget
    have hmem : lu ∈ computeRoster db sched := List.get?_mem hget
    have hlen : i < (computeRoster db sched).length := by
      rcases List.get?_eq_some.mp hget with ⟨h, _⟩
      exact h
    have hnonempty : computeRoster db sched ≠ [] := List.ne_nil_of_mem hmem
    have hne : ¬ ((computeRoster db sched).isEmpty = true) := by
      rw [List.isEmpty_iff]
      exact hnonempty
    rw [find_next_eq_of_found db sched evs row hfind, if_neg hne]
    split
    · rename_i lu2 hlu2
      rw [hlu] at hlu2
      cases hlu2
      have hcont : (computeRoster db sched).contains lu = true :=
        List.elem_iff.mpr hmem
      rw [if_pos hcont]
      have h1 : (computeRoster db sched).indexOf lu
          < (computeRoster db sched).length :=
        List.indexOf_lt_length.2 hmem
      have hg1 : (computeRoster db sched).get ⟨_, h1⟩ = lu :=
        List.indexOf_get h1
      have hg2 : (computeRoster db sched).get ⟨i, hlen⟩ = lu := by
        rcases List.get?_eq_some.mp hget with ⟨h, hh⟩
        exact hh
      have hfin : (⟨(computeRoster db sched).indexOf lu, h1⟩ :
          Fin (computeRoster db sched).length) = ⟨i, hlen⟩ :=
        (List.Nodup.get_inj_iff hnd).mp (hg1.trans hg2.symm)
      have hidx : (computeRoster db sched).indexOf lu = i :=
        congrArg Fin.val hfin
      have hjlt : (i + 1) % (computeRoster db sched).length
          < (computeRoster db sched).length :=
        Nat.mod_lt _ (Nat.lt_of_le_of_lt (Nat.zero_le i) hlen)
      unfold nextAfter
      rw [hidx]
      congr 1
      rw [List.getD_eq_get? _ _ _, List.get?_eq_get hjlt]
      rfl
    · rename_i hlu2
      rw [hlu] at hlu2
      cases hlu2
  · intro hlunone hnonempty hmin hnoqual
    have hne : ¬ ((computeRoster db sched).isEmpty = true) := by
      rw [List.isEmpty_iff]
      exact hnonempty
    rw [find_next_eq_of_found db sched evs row hfind, if_neg hne]
    split
    · rename_i lu2 hlu2
      rw [hlunone] at hlu2
      cases hlu2
    · have hfm : (computeRoster db sched).filterMap
          (fun v => (lastStart db sched bound v).map (fun s => (v, s))) = [] := by
        rw [List.filterMap_eq_nil_iff]
        intro v hv
        rw [Option.map_eq_none']
        unfold lastStart
        rw [List.maximum_eq_none]
        rw [List.eq_nil_iff_forall_not_mem]
        intro s hs
        obtain ⟨e, he, hq, _⟩ := (qualStarts_mem db sched bound v s).mp hs
        exact hnoqual v hv e he hq
      have hgnone : guess_last_scheduled_user db sched bound
          (computeRoster db sched) = none := by
        unfold guess_last_scheduled_user
        rw [hfm]
      unfold inferFromCalendar
      rw [hmin]
      show (match guess_last_scheduled_user db sched bound
          (computeRoster db sched) with
        | none => Except.ok (some ((computeRoster db sched).headD 0))
        | some g => Except.ok (nextAfter (computeRoster db sched) g))
          = Except.ok (some ((computeRoster db sched).headD 0))
      rw [hgnone]

def dbCursor1 : DB :=
  { dbW with schedules := [{ schedW with last_scheduled_user_id := some 1 }] }

/-- Witness for C5: with cursor on user 1 (roster position 0 of [1, 2])
the pick is position 1 mod 2; with a NULL cursor and an empty calendar
the pick is the first roster member. -/
theorem find_next_user_id_round_robin_witness :
    find_next_user_id dbCursor1 schedW []
      = Except.ok ((computeRoster dbCursor1 schedW).get?
          ((0 + 1) % (computeRoster dbCursor1 schedW).length)) ∧
    find_next_user_id dbW schedW [{ start := 1000, end_ := 2000 }]
      = Except.ok (some ((computeRoster dbW schedW).headD 0)) :=
  ⟨(find_next_user_id_round_robin dbCursor1 schedW []
      { schedW with last_scheduled_user_id := some 1 } 0 1 1000
      (by decide)).1 (by decide) (by decide) (by decide),
   (find_next_user_id_round_robin dbW schedW [{ start := 1000, end_ := 2000 }]
      schedW 0 1 1000 (by decide)).2 (by decide) (by decide) (by decide)
      (by decide)⟩
